import Mathlib

/-!
Shallow embedding of `gpcalc.py` (geopotential calculation on hybrid model
levels) and verification of the specification's claims about it.

Modelling conventions:
* numpy grid fields are element-wise over an abstract cell type `Cell`;
  a field is `Cell → FV` where `FV := Option ℝ` and `none` models a
  non-finite float (NaN or an infinity), as produced by `np.nan`,
  `np.log` of a non-positive argument, or division by zero.
* The module-level globals (`era_ds`, `ml_df`, `lvlmax`, `source`) set by
  `set_data` are gathered into a `Cfg` record; each function takes it as
  an argument.
* The coefficient table `ml_df` is modelled as total functions
  `a b : ℤ → ℝ` (the spec's invariant guarantees the rows addressed by a
  configured scheme exist).
* Python raises `UnboundLocalError` in `get_p` when the local `h` is read
  without having been assigned (unrecognized `hl` specifier or unknown
  `source`); results are therefore `Except PyErr _`.  Note that when
  `k > lvlmax` both guarding conditions of `get_p` short-circuit to
  `False` before ever reading `h`, so no exception is raised there and
  the NaN-initialized field is returned.
-/

namespace GPCalc

/-- A float value: `some x` is a finite float (modelled as a real),
`none` models a non-finite float (NaN or ±Inf). -/
abbrev FV := Option ℝ

/-- Element-wise float addition; any operation on a non-finite operand is
non-finite. -/
def fadd : FV → FV → FV
  | some x, some y => some (x + y)
  | _, _ => none

/-- Element-wise float subtraction. -/
def fsub : FV → FV → FV
  | some x, some y => some (x - y)
  | _, _ => none

/-- Element-wise float multiplication. -/
def fmul : FV → FV → FV
  | some x, some y => some (x * y)
  | _, _ => none

/-- Element-wise float division; division by zero yields a non-finite
float (Inf or NaN), modelled as `none`. -/
noncomputable def fdiv : FV → FV → FV
  | some x, some y => if y = 0 then none else some (x / y)
  | _, _ => none

/-- Element-wise `np.log`; on a non-positive argument numpy returns
`-inf` or NaN, modelled as `none`. -/
noncomputable def flog : FV → FV
  | some x => if 0 < x then some (Real.log x) else none
  | none => none

/-- The data source recorded by `set_data`: `era5` for 137 levels,
`erai` for 60 levels, the string `'error'` otherwise. -/
inductive Source
  | era5
  | erai
  | error
deriving DecidableEq

/-- The Python exceptions our embedding can surface: reading the local
variable `h` of `get_p` before assignment raises `UnboundLocalError`. -/
inductive PyErr
  | unboundLocal
deriving DecidableEq

/-- The fields of the xarray dataset `era_ds` used by the code: surface
pressure `sp`, per-level temperature `t` and specific humidity `q`, and
surface geopotential `z`.  Input data are finite floats. -/
structure EraDs (Cell : Type) where
  sp : Cell → ℝ
  t : ℤ → Cell → ℝ
  q : ℤ → Cell → ℝ
  z : Cell → ℝ

/-- The model-level coefficient table `ml_df`, column `a [Pa]` and
column `b`, indexed by the integer half-level row label. -/
structure MlDf where
  a : ℤ → ℝ
  b : ℤ → ℝ

/-- The module-level globals of `gpcalc.py` after a call to `set_data`. -/
structure Cfg (Cell : Type) where
  era_ds : EraDs Cell
  ml_df : MlDf
  lvlmax : ℤ
  source : Source

/-- The `source` global computed by `set_data` from the supplied number
of model levels (the unknown case additionally prints a warning and
continues). -/
def sourceOf (lvls : ℤ) : Source :=
  if lvls = 137 then Source.era5
  else if lvls = 60 then Source.erai
  else Source.error

/-- Embedding of `set_data(eds, mldf, lvls)`: stores the inputs in the
globals and derives `source`; it returns no error indication. -/
def set_data {Cell : Type} (eds : EraDs Cell) (mldf : MlDf) (lvls : ℤ) : Cfg Cell :=
  ⟨eds, mldf, lvls, sourceOf lvls⟩

/-- Gas constant of dry air, J K⁻¹ kg⁻¹ (module constant `R_D`). -/
noncomputable def R_D : ℝ := 287.06

/-- Gas constant of water vapor, J K⁻¹ kg⁻¹ (module constant `R_V`). -/
def R_V : ℝ := 461

/-- Virtual temperature `tv = t*(1+(R_V/R_D-1.0)*q)` at full level `j`,
as computed inline in `get_phikhalf` and `get_phi`. -/
noncomputable def tv {Cell : Type} (cfg : Cfg Cell) (j : ℤ) (c : Cell) : ℝ :=
  cfg.era_ds.t j c * (1 + (R_V / R_D - 1) * cfg.era_ds.q j c)

/-- The half-level row offset `h` chosen by `get_p` from the specifier
`hl` and the active source; `none` when the Python local `h` is left
unassigned (unrecognized specifier, or unknown source). -/
def get_h (s : Source) (hl : ℚ) : Option ℤ :=
  match s with
  | Source.era5 => if hl = 1/2 then some 0 else if hl = -(1/2) then some (-1) else none
  | Source.erai => if hl = 1/2 then some 1 else if hl = -(1/2) then some 0 else none
  | Source.error => none

/-- Embedding of `get_p(k, hl)`: pressure at a half level.  `p` is
initialized to an all-NaN field; if the first guard holds the table row
`k+h` is fetched and `a + b*sp` returned, else if the second guard holds
the surface pressure is returned, else the NaN field is returned.  When
`k > lvlmax` both guards short-circuit to `False` without reading `h`;
otherwise an unassigned `h` raises `UnboundLocalError`. -/
noncomputable def get_p {Cell : Type} (cfg : Cfg Cell) (k : ℤ) (hl : ℚ) :
    Except PyErr (Cell → FV) :=
  if cfg.lvlmax < k then
    Except.ok fun _ => none
  else
    match get_h cfg.source hl with
    | none => Except.error PyErr.unboundLocal
    | some h =>
      if k < cfg.lvlmax ∨ (k = cfg.lvlmax ∧ h = -1 ∧ cfg.source = Source.era5)
          ∨ (k = cfg.lvlmax ∧ h = 0 ∧ cfg.source = Source.erai) then
        Except.ok fun c => some (cfg.ml_df.a (k + h) + cfg.ml_df.b (k + h) * cfg.era_ds.sp c)
      else if (cfg.source = Source.era5 ∧ k = cfg.lvlmax ∧ h = 0)
          ∨ (cfg.source = Source.erai ∧ k = cfg.lvlmax ∧ h = 1) then
        Except.ok fun c => some (cfg.era_ds.sp c)
      else
        Except.ok fun _ => none

/-- The list of levels visited by the loop `for j in range(k+1, lvlmax+1)`. -/
def levRange (k m : ℤ) : List ℤ :=
  (List.range (m - k).toNat).map fun (i : ℕ) => k + 1 + (i : ℤ)

/-- The accumulation loop of `get_phikhalf`: for each level `j`, fetch
`pu = get_p(j,-0.5)` and `pl = get_p(j,+0.5)` and add
`R_D*tv*np.log(pl/pu)` to the running sum. -/
noncomputable def phikLoop {Cell : Type} (cfg : Cfg Cell) :
    List ℤ → (Cell → FV) → Except PyErr (Cell → FV)
  | [], s => Except.ok s
  | j :: js, s =>
    match get_p cfg j (-(1/2)) with
    | Except.error e => Except.error e
    | Except.ok pu =>
      match get_p cfg j (1/2) with
      | Except.error e => Except.error e
      | Except.ok pl =>
        phikLoop cfg js fun c =>
          fadd (s c) (fmul (some (R_D * tv cfg j c)) (flog (fdiv (pl c) (pu c))))

/-- Embedding of `get_phikhalf(k)` (eq. 2.21): starting from `s = 0`,
run the loop over `range(k+1, lvlmax+1)`, then add the surface
geopotential `era_ds.z`. -/
noncomputable def get_phikhalf {Cell : Type} (cfg : Cfg Cell) (k : ℤ) :
    Except PyErr (Cell → FV) :=
  match phikLoop cfg (levRange k cfg.lvlmax) (fun _ => some 0) with
  | Except.error e => Except.error e
  | Except.ok s => Except.ok fun c => fadd (s c) (some (cfg.era_ds.z c))

/-- Embedding of `get_alpha(k)` (eq. 2.23): `log 2` at `k = 1`,
otherwise `1 - (pu/deltapk)*np.log(pl/pu)` with `deltapk = pl - pu`. -/
noncomputable def get_alpha {Cell : Type} (cfg : Cfg Cell) (k : ℤ) :
    Except PyErr (Cell → FV) :=
  if k = 1 then
    Except.ok fun _ => some (Real.log 2)
  else
    match get_p cfg k (-(1/2)) with
    | Except.error e => Except.error e
    | Except.ok pu =>
      match get_p cfg k (1/2) with
      | Except.error e => Except.error e
      | Except.ok pl =>
        Except.ok fun c =>
          fsub (some 1) (fmul (fdiv (pu c) (fsub (pl c) (pu c))) (flog (fdiv (pl c) (pu c))))

/-- Embedding of `get_phi(k)` (eq. 2.22): the full-level geopotential
`phikhl + ak*R_D*tv`. -/
noncomputable def get_phi {Cell : Type} (cfg : Cfg Cell) (k : ℤ) :
    Except PyErr (Cell → FV) :=
  match get_phikhalf cfg k with
  | Except.error e => Except.error e
  | Except.ok phikhl =>
    match get_alpha cfg k with
    | Except.error e => Except.error e
    | Except.ok ak =>
      Except.ok fun c =>
        fadd (phikhl c) (fmul (fmul (ak c) (some R_D)) (some (tv cfg k c)))

section GetPLemmas

variable {Cell : Type}

/-- Under the era5 source, the specifier `+0.5` selects offset `h = 0`. -/
lemma get_h_era5_below : get_h Source.era5 (1/2) = some 0 := by
  simp [get_h]

/-- Under the era5 source, the specifier `-0.5` selects offset `h = -1`. -/
lemma get_h_era5_above : get_h Source.era5 (-(1/2)) = some (-1) := by
  norm_num [get_h]

/-- Under the erai source, the specifier `+0.5` selects offset `h = 1`. -/
lemma get_h_erai_below : get_h Source.erai (1/2) = some 1 := by
  simp [get_h]

/-- Under the erai source, the specifier `-0.5` selects offset `h = 0`. -/
lemma get_h_erai_above : get_h Source.erai (-(1/2)) = some 0 := by
  norm_num [get_h]

/-- era5, interior `k`: the half level below full level `k` is table row `k`. -/
lemma get_p_below_era5 (cfg : Cfg Cell) (k : ℤ) (hs : cfg.source = Source.era5)
    (hk : k < cfg.lvlmax) :
    get_p cfg k (1/2) =
      Except.ok fun c => some (cfg.ml_df.a k + cfg.ml_df.b k * cfg.era_ds.sp c) := by
  simp only [get_p, hs, get_h_era5_below, if_neg (show ¬ cfg.lvlmax < k by omega)]
  rw [if_pos (Or.inl hk)]
  simp

/-- era5, `k ≤ lvlmax`: the half level above full level `k` is table row `k - 1`. -/
lemma get_p_above_era5 (cfg : Cfg Cell) (k : ℤ) (hs : cfg.source = Source.era5)
    (hk : k ≤ cfg.lvlmax) :
    get_p cfg k (-(1/2)) =
      Except.ok fun c => some (cfg.ml_df.a (k - 1) + cfg.ml_df.b (k - 1) * cfg.era_ds.sp c) := by
  simp only [get_p, hs, get_h_era5_above, if_neg (show ¬ cfg.lvlmax < k by omega)]
  rcases lt_or_eq_of_le hk with h | h
  · rw [if_pos (Or.inl h)]
    simp [sub_eq_add_neg]
  · rw [if_pos (Or.inr (Or.inl ⟨h, trivial, trivial⟩))]
    simp [sub_eq_add_neg]

/-- era5, `k = lvlmax`: the half level below the bottom full level is the
surface pressure itself. -/
lemma get_p_below_era5_surf (cfg : Cfg Cell) (k : ℤ) (hs : cfg.source = Source.era5)
    (hk : k = cfg.lvlmax) :
    get_p cfg k (1/2) = Except.ok fun c => some (cfg.era_ds.sp c) := by
  simp only [get_p, hs, get_h_era5_below, if_neg (show ¬ cfg.lvlmax < k by omega)]
  rw [if_neg (by simp; omega), if_pos (Or.inl ⟨trivial, hk, trivial⟩)]

/-- erai, interior `k`: the half level below full level `k` is table row `k + 1`. -/
lemma get_p_below_erai (cfg : Cfg Cell) (k : ℤ) (hs : cfg.source = Source.erai)
    (hk : k < cfg.lvlmax) :
    get_p cfg k (1/2) =
      Except.ok fun c => some (cfg.ml_df.a (k + 1) + cfg.ml_df.b (k + 1) * cfg.era_ds.sp c) := by
  simp only [get_p, hs, get_h_erai_below, if_neg (show ¬ cfg.lvlmax < k by omega)]
  rw [if_pos (Or.inl hk)]

/-- erai, `k ≤ lvlmax`: the half level above full level `k` is table row `k`. -/
lemma get_p_above_erai (cfg : Cfg Cell) (k : ℤ) (hs : cfg.source = Source.erai)
    (hk : k ≤ cfg.lvlmax) :
    get_p cfg k (-(1/2)) =
      Except.ok fun c => some (cfg.ml_df.a k + cfg.ml_df.b k * cfg.era_ds.sp c) := by
  simp only [get_p, hs, get_h_erai_above, if_neg (show ¬ cfg.lvlmax < k by omega)]
  rcases lt_or_eq_of_le hk with h | h
  · rw [if_pos (Or.inl h)]
    simp
  · rw [if_pos (Or.inr (Or.inr ⟨h, trivial, trivial⟩))]
    simp

/-- erai, `k = lvlmax`: the half level below the bottom full level is the
surface pressure itself. -/
lemma get_p_below_erai_surf (cfg : Cfg Cell) (k : ℤ) (hs : cfg.source = Source.erai)
    (hk : k = cfg.lvlmax) :
    get_p cfg k (1/2) = Except.ok fun c => some (cfg.era_ds.sp c) := by
  simp only [get_p, hs, get_h_erai_below, if_neg (show ¬ cfg.lvlmax < k by omega)]
  rw [if_neg (by simp; omega), if_pos (Or.inr ⟨trivial, hk, trivial⟩)]

/-- For `k > lvlmax` the guards of `get_p` short-circuit without reading
`h` and the NaN-initialized field is returned, whatever the source and
the specifier. -/
lemma get_p_out_of_range (cfg : Cfg Cell) (k : ℤ) (hl : ℚ) (hk : cfg.lvlmax < k) :
    get_p cfg k hl = Except.ok fun _ => none := by
  rw [get_p, if_pos hk]

end GetPLemmas

section PhikLemmas

variable {Cell : Type}

/-- An empty loop range: `range(k+1, m+1)` visits nothing when `m ≤ k`. -/
lemma levRange_nil (k m : ℤ) (h : m ≤ k) : levRange k m = [] := by
  simp [levRange, Int.toNat_of_nonpos (by omega : m - k ≤ 0)]

/-- Peeling the first iteration off the loop range. -/
lemma levRange_cons (k m : ℤ) (h : k < m) : levRange k m = (k + 1) :: levRange (k + 1) m := by
  have hn : (m - k).toNat = (m - (k + 1)).toNat + 1 := by omega
  rw [levRange, hn, List.range_succ_eq_map, List.map_cons, List.map_map]
  refine (List.cons_eq_cons).mpr ⟨by norm_num, ?_⟩
  rw [levRange]
  refine List.map_congr_left fun i _ => ?_
  simp only [Function.comp_apply]
  push_cast
  ring

/-- Membership in the loop range. -/
lemma mem_levRange (k m j : ℤ) (hj : j ∈ levRange k m) : k + 1 ≤ j ∧ j ≤ m := by
  rcases List.mem_map.1 hj with ⟨i, hi, rfl⟩
  have := List.mem_range.1 hi
  omega

/-- For a real-valued starting accumulator and positive half-level
pressures delivered by `get_p` along the visited levels, the loop
computes the real sum of the hydrostatic terms. -/
lemma phikLoop_ok (cfg : Cfg Cell) (PU PL : ℤ → Cell → ℝ) :
    ∀ (L : List ℤ) (g : Cell → ℝ),
    (∀ j ∈ L, get_p cfg j (-(1/2)) = Except.ok fun c => some (PU j c)) →
    (∀ j ∈ L, get_p cfg j (1/2) = Except.ok fun c => some (PL j c)) →
    (∀ j ∈ L, ∀ c, 0 < PU j c) →
    (∀ j ∈ L, ∀ c, 0 < PL j c) →
    phikLoop cfg L (fun c => some (g c)) =
      Except.ok fun c =>
        some (g c + (L.map fun j => R_D * tv cfg j c * Real.log (PL j c / PU j c)).sum)
  | [], g, _, _, _, _ => by
    rw [phikLoop]
    exact congrArg Except.ok (funext fun c => by simp)
  | j :: js, g, hPU, hPL, hpu, hpl => by
    have hunf : phikLoop cfg (j :: js) (fun c => some (g c)) =
        phikLoop cfg js fun c =>
          fadd (some (g c)) (fmul (some (R_D * tv cfg j c))
            (flog (fdiv (some (PL j c)) (some (PU j c))))) := by
      rw [phikLoop, hPU j (by simp), hPL j (by simp)]
    have hstep : (fun c =>
        fadd (some (g c)) (fmul (some (R_D * tv cfg j c))
          (flog (fdiv (some (PL j c)) (some (PU j c)))))) =
        fun c => some (g c + R_D * tv cfg j c * Real.log (PL j c / PU j c)) := by
      funext c
      have hu : PU j c ≠ 0 := ne_of_gt (hpu j (by simp) c)
      have hq : 0 < PL j c / PU j c := div_pos (hpl j (by simp) c) (hpu j (by simp) c)
      simp [fdiv, if_neg hu, flog, if_pos hq, fmul, fadd, mul_assoc]
    rw [hunf, hstep, phikLoop_ok cfg PU PL js
      (fun c => g c + R_D * tv cfg j c * Real.log (PL j c / PU j c))
      (fun i hi => hPU i (by simp [hi])) (fun i hi => hPL i (by simp [hi]))
      (fun i hi => hpu i (by simp [hi])) (fun i hi => hpl i (by simp [hi]))]
    refine congrArg Except.ok (funext fun c => ?_)
    simp only [List.map_cons, List.sum_cons, Option.some.injEq]
    ring

/-- The list sum over the loop range agrees with the closed interval sum. -/
lemma levRange_sum (f : ℤ → ℝ) :
    ∀ (n : ℕ) (k m : ℤ), (m - k).toNat = n →
    ((levRange k m).map f).sum = ∑ j in Finset.Icc (k + 1) m, f j
  | 0, k, m, hn => by
    rw [levRange_nil k m (by omega), Finset.Icc_eq_empty (by omega)]
    simp
  | n + 1, k, m, hn => by
    have hk : k < m := by omega
    rw [levRange_cons k m hk, List.map_cons, List.sum_cons,
      levRange_sum f n (k + 1) m (by omega)]
    have hins : Finset.Icc (k + 1) m = insert (k + 1) (Finset.Icc (k + 1 + 1) m) := by
      ext x
      simp only [Finset.mem_Icc, Finset.mem_insert]
      omega
    rw [hins, Finset.sum_insert (by simp)]

/-- For every `k ≥ lvlmax` the loop range of `get_phikhalf` is empty and
the function returns the surface geopotential unchanged, with no error,
whatever the configured source. -/
lemma get_phikhalf_surface (cfg : Cfg Cell) (k : ℤ) (hk : cfg.lvlmax ≤ k) :
    get_phikhalf cfg k = Except.ok fun c => some (cfg.era_ds.z c) := by
  rw [get_phikhalf, levRange_nil k cfg.lvlmax hk, phikLoop]
  exact congrArg Except.ok (funext fun c => by simp [fadd])

/-- The general closed form of `get_phikhalf`: surface geopotential plus
the interval sum of the hydrostatic terms, whenever `get_p` delivers
finite positive half-level pressures along the accumulation range. -/
lemma get_phikhalf_closed (cfg : Cfg Cell) (k : ℤ) (PU PL : ℤ → Cell → ℝ)
    (hPU : ∀ j, k + 1 ≤ j → j ≤ cfg.lvlmax →
      get_p cfg j (-(1/2)) = Except.ok fun c => some (PU j c))
    (hPL : ∀ j, k + 1 ≤ j → j ≤ cfg.lvlmax →
      get_p cfg j (1/2) = Except.ok fun c => some (PL j c))
    (hpos : ∀ j, k + 1 ≤ j → j ≤ cfg.lvlmax → ∀ c, 0 < PU j c ∧ 0 < PL j c) :
    get_phikhalf cfg k = Except.ok fun c =>
      some (cfg.era_ds.z c +
        ∑ j in Finset.Icc (k + 1) cfg.lvlmax, R_D * tv cfg j c * Real.log (PL j c / PU j c)) := by
  rw [get_phikhalf, phikLoop_ok cfg PU PL (levRange k cfg.lvlmax) (fun _ => 0)
    (fun j hj => hPU j (mem_levRange _ _ _ hj).1 (mem_levRange _ _ _ hj).2)
    (fun j hj => hPL j (mem_levRange _ _ _ hj).1 (mem_levRange _ _ _ hj).2)
    (fun j hj => fun c => (hpos j (mem_levRange _ _ _ hj).1 (mem_levRange _ _ _ hj).2 c).1)
    (fun j hj => fun c => (hpos j (mem_levRange _ _ _ hj).1 (mem_levRange _ _ _ hj).2 c).2)]
  refine congrArg Except.ok (funext fun c => ?_)
  show fadd (some _) (some _) = _
  rw [fadd, levRange_sum _ (cfg.lvlmax - k).toNat k cfg.lvlmax rfl]
  refine congrArg some ?_
  ring

end PhikLemmas

section ConcreteData

/-- A single-cell dataset with surface pressure 1 and all other fields 0. -/
def eds1 : EraDs Unit :=
  ⟨fun _ => 1, fun _ _ => 0, fun _ _ => 0, fun _ => 0⟩

/-- A single-cell dataset with surface pressure 4 and all other fields 0. -/
def eds4 : EraDs Unit :=
  ⟨fun _ => 4, fun _ _ => 0, fun _ _ => 0, fun _ => 0⟩

/-- A coefficient table with both columns equal to the row index. -/
noncomputable def mlId : MlDf := ⟨fun i => (i : ℝ), fun i => (i : ℝ)⟩

/-- A coefficient table with `a` the row index and `b` zero. -/
noncomputable def mlInt : MlDf := ⟨fun i => (i : ℝ), fun _ => 0⟩

/-- A coefficient table with constant rows `a = 2`, `b = 0`. -/
def mlC : MlDf := ⟨fun _ => 2, fun _ => 0⟩

/-- A 137-level (era5) configuration over a single grid cell. -/
noncomputable def cfg137c : Cfg Unit := set_data eds1 mlId 137

/-- A 60-level (erai) configuration over a single grid cell. -/
noncomputable def cfg60 : Cfg Unit := set_data eds4 mlInt 60

/-- A 60-level (erai) configuration whose coefficient table has constant
rows, so that consecutive half-level pressures coincide. -/
noncomputable def cfgW : Cfg Unit := set_data eds4 mlC 60

/-- A configuration made with an unrecognized level count. -/
noncomputable def cfg42 : Cfg Unit := set_data eds1 mlId 42

end ConcreteData

section Claims

variable {Cell : Type}

/-- C3: for every full level `k < max_level` and either specifier,
`pressure_at_half_level` returns `a + b × surface_pressure` from the
coefficient row `k + h`, with offsets `h = 0` (BELOW) and `h = -1`
(ABOVE) under the era5/137 scheme, and `h = 1` (BELOW) and `h = 0`
(ABOVE) under the erai/60 scheme. -/
theorem claim_C3 (cfg : Cfg Cell) (k : ℤ) (hk1 : 1 ≤ k) (hk : k < cfg.lvlmax) :
    (cfg.source = Source.era5 →
      get_p cfg k (1/2) =
        Except.ok (fun c => some (cfg.ml_df.a k + cfg.ml_df.b k * cfg.era_ds.sp c)) ∧
      get_p cfg k (-(1/2)) =
        Except.ok (fun c => some (cfg.ml_df.a (k - 1) + cfg.ml_df.b (k - 1) * cfg.era_ds.sp c))) ∧
    (cfg.source = Source.erai →
      get_p cfg k (1/2) =
        Except.ok (fun c => some (cfg.ml_df.a (k + 1) + cfg.ml_df.b (k + 1) * cfg.era_ds.sp c)) ∧
      get_p cfg k (-(1/2)) =
        Except.ok (fun c => some (cfg.ml_df.a k + cfg.ml_df.b k * cfg.era_ds.sp c))) :=
  ⟨fun h5 => ⟨get_p_below_era5 cfg k h5 hk, get_p_above_era5 cfg k h5 (le_of_lt hk)⟩,
   fun h6 => ⟨get_p_below_erai cfg k h6 hk, get_p_above_erai cfg k h6 (le_of_lt hk)⟩⟩

/-- Witness for C3 at the concrete erai configuration `cfg60`, level 5. -/
theorem claim_C3_witness :
    (1 : ℤ) ≤ 5 ∧ (5 : ℤ) < cfg60.lvlmax ∧ cfg60.source = Source.erai ∧
    get_p cfg60 5 (1/2) =
      Except.ok (fun c => some (cfg60.ml_df.a (5 + 1) + cfg60.ml_df.b (5 + 1) * cfg60.era_ds.sp c)) ∧
    get_p cfg60 5 (-(1/2)) =
      Except.ok (fun c => some (cfg60.ml_df.a 5 + cfg60.ml_df.b 5 * cfg60.era_ds.sp c)) := by
  have h1 : (1 : ℤ) ≤ 5 := by norm_num
  have h2 : (5 : ℤ) < cfg60.lvlmax := by norm_num [cfg60, set_data]
  have hs : cfg60.source = Source.erai := by norm_num [cfg60, set_data, sourceOf]
  exact ⟨h1, h2, hs, ((claim_C3 cfg60 5 h1 h2).2 hs).1, ((claim_C3 cfg60 5 h1 h2).2 hs).2⟩

/-- C1 (corrected): at `k == max_level` the code pairs the conventions
the other way round from the claim for the 60-level scheme: under
erai/SCHEME_60 it is ABOVE (`h = 0`) that fetches table row `k` while
BELOW (`h = 1`) returns the surface pressure directly; under
era5/SCHEME_137, ABOVE (`h = -1`) fetches table row `k - 1` and BELOW
(`h = 0`) returns the surface pressure directly. -/
theorem claim_C1 (cfg : Cfg Cell) (k : ℤ) (hk : k = cfg.lvlmax) :
    (cfg.source = Source.erai →
      get_p cfg k (-(1/2)) =
        Except.ok (fun c => some (cfg.ml_df.a k + cfg.ml_df.b k * cfg.era_ds.sp c)) ∧
      get_p cfg k (1/2) = Except.ok fun c => some (cfg.era_ds.sp c)) ∧
    (cfg.source = Source.era5 →
      get_p cfg k (-(1/2)) =
        Except.ok (fun c => some (cfg.ml_df.a (k - 1) + cfg.ml_df.b (k - 1) * cfg.era_ds.sp c)) ∧
      get_p cfg k (1/2) = Except.ok fun c => some (cfg.era_ds.sp c)) :=
  ⟨fun h6 => ⟨get_p_above_erai cfg k h6 (le_of_eq hk), get_p_below_erai_surf cfg k h6 hk⟩,
   fun h5 => ⟨get_p_above_era5 cfg k h5 (le_of_eq hk), get_p_below_era5_surf cfg k h5 hk⟩⟩

/-- Counterexample to C1 as stated: in the concrete erai configuration
`cfg60` (`max_level = 60`, `a` the row index, `b = 0`, surface pressure
4), `pressure_at_half_level(60, BELOW)` returns the surface pressure 4
and not the claimed table-row-61 value 61, while
`pressure_at_half_level(60, ABOVE)` returns the table-row-60 value 60
and not the claimed surface pressure 4. -/
theorem claim_C1_cex :
    cfg60.source = Source.erai ∧ cfg60.lvlmax = 60 ∧
    get_p cfg60 60 (1/2) = Except.ok (fun _ => some (4 : ℝ)) ∧
    cfg60.ml_df.a (60 + 1) + cfg60.ml_df.b (60 + 1) * cfg60.era_ds.sp () = 61 ∧
    (4 : ℝ) ≠ 61 ∧
    get_p cfg60 60 (-(1/2)) = Except.ok (fun _ => some (60 : ℝ)) ∧
    cfg60.era_ds.sp () = 4 ∧ (60 : ℝ) ≠ 4 := by
  have hs : cfg60.source = Source.erai := by norm_num [cfg60, set_data, sourceOf]
  have hk : (60 : ℤ) = cfg60.lvlmax := by norm_num [cfg60, set_data]
  refine ⟨hs, by norm_num [cfg60, set_data], ?_, ?_, by norm_num, ?_, ?_, by norm_num⟩
  · exact (get_p_below_erai_surf cfg60 60 hs hk).trans
      (congrArg Except.ok (funext fun c => by norm_num [cfg60, set_data, eds4]))
  · norm_num [cfg60, set_data, mlInt, eds4]
  · exact (get_p_above_erai cfg60 60 hs (le_of_eq hk)).trans
      (congrArg Except.ok (funext fun c => by norm_num [cfg60, set_data, mlInt, eds4]))
  · norm_num [cfg60, set_data, eds4]

/-- Witness for the amended C1 at the concrete erai configuration. -/
theorem claim_C1_witness :
    cfg60.source = Source.erai ∧ (60 : ℤ) = cfg60.lvlmax ∧
    get_p cfg60 60 (-(1/2)) =
      Except.ok (fun c => some (cfg60.ml_df.a 60 + cfg60.ml_df.b 60 * cfg60.era_ds.sp c)) ∧
    get_p cfg60 60 (1/2) = Except.ok fun c => some (cfg60.era_ds.sp c) := by
  have hs : cfg60.source = Source.erai := by norm_num [cfg60, set_data, sourceOf]
  have hk : (60 : ℤ) = cfg60.lvlmax := by norm_num [cfg60, set_data]
  exact ⟨hs, hk, ((claim_C1 cfg60 60 hk).1 hs).1, ((claim_C1 cfg60 60 hk).1 hs).2⟩

/-- C10: for every `k` at or beyond the configured `max_level` —
including out-of-range `k > max_level` — `get_phikhalf(k)` returns
exactly the surface geopotential field with no error, because the
accumulation loop over `range(k+1, lvlmax+1)` is empty. -/
theorem claim_C10 (cfg : Cfg Cell) (k : ℤ) (hk : cfg.lvlmax ≤ k) :
    get_phikhalf cfg k = Except.ok fun c => some (cfg.era_ds.z c) :=
  get_phikhalf_surface cfg k hk

/-- Witness for C10: the configuration with 42 levels happily evaluates
`get_phikhalf` at the out-of-range level 50, returning the surface
geopotential. -/
theorem claim_C10_witness :
    cfg42.lvlmax ≤ 50 ∧ get_phikhalf cfg42 50 = Except.ok fun _ => some (0 : ℝ) := by
  have hk : cfg42.lvlmax ≤ 50 := by norm_num [cfg42, set_data]
  refine ⟨hk, (claim_C10 cfg42 50 hk).trans ?_⟩
  exact congrArg Except.ok (funext fun c => by norm_num [cfg42, set_data, eds1])

/-- C6 (code bug): `set_data` does select era5 for 137 levels and erai
for 60 levels, and records the invalid source for any other count — but
it surfaces no error result and subsequent calculation proceeds: with
the unrecognized level count 42 the configuration still evaluates
`get_phikhalf(42)` successfully instead of being blocked. -/
theorem claim_C6_bug :
    sourceOf 137 = Source.era5 ∧ sourceOf 60 = Source.erai ∧ sourceOf 42 = Source.error ∧
    cfg42.source = Source.error ∧
    get_phikhalf cfg42 42 = Except.ok fun _ => some (0 : ℝ) := by
  refine ⟨by norm_num [sourceOf], by norm_num [sourceOf], by norm_num [sourceOf],
    by norm_num [cfg42, set_data, sourceOf], ?_⟩
  refine (get_phikhalf_surface cfg42 42 (by norm_num [cfg42, set_data])).trans ?_
  exact congrArg Except.ok (funext fun c => by norm_num [cfg42, set_data, eds1])

/-- C2: for every full level `k` in `[1, max_level]`,
`geopotential_half_level(k)` equals the surface geopotential plus the
sum over `j` from `k+1` to `max_level` of
`R_D × Tv(j) × ln(p_below(j)/p_above(j))`, with
`Tv(j) = T(j) × (1 + (R_V/R_D − 1) × q(j))` and the half-level
pressures delivered by the pressure resolver `get_p`; for
`k = max_level` the range is empty and the result is exactly the
surface geopotential. -/
theorem claim_C2 (cfg : Cfg Cell) (k : ℤ) (hk1 : 1 ≤ k) (hk2 : k ≤ cfg.lvlmax)
    (PU PL : ℤ → Cell → ℝ)
    (hPU : ∀ j, k + 1 ≤ j → j ≤ cfg.lvlmax →
      get_p cfg j (-(1/2)) = Except.ok fun c => some (PU j c))
    (hPL : ∀ j, k + 1 ≤ j → j ≤ cfg.lvlmax →
      get_p cfg j (1/2) = Except.ok fun c => some (PL j c))
    (hpos : ∀ j, k + 1 ≤ j → j ≤ cfg.lvlmax → ∀ c, 0 < PU j c ∧ 0 < PL j c) :
    (get_phikhalf cfg k = Except.ok fun c =>
      some (cfg.era_ds.z c +
        ∑ j in Finset.Icc (k + 1) cfg.lvlmax,
          R_D * (cfg.era_ds.t j c * (1 + (R_V / R_D - 1) * cfg.era_ds.q j c)) *
            Real.log (PL j c / PU j c))) ∧
    (k = cfg.lvlmax → get_phikhalf cfg k = Except.ok fun c => some (cfg.era_ds.z c)) :=
  ⟨get_phikhalf_closed cfg k PU PL hPU hPL hpos,
   fun hk => get_phikhalf_surface cfg k (le_of_eq hk.symm)⟩

/-- Witness for C2 at the concrete erai configuration `cfg60`, level 59:
the single accumulated level is `j = 60`, whose bracketing pressures are
the row-60 value 60 (above) and the surface pressure 4 (below). -/
theorem claim_C2_witness :
    (1 : ℤ) ≤ 59 ∧ (59 : ℤ) ≤ cfg60.lvlmax ∧
    get_p cfg60 60 (-(1/2)) = Except.ok (fun _ => some (60 : ℝ)) ∧
    get_p cfg60 60 (1/2) = Except.ok (fun _ => some (4 : ℝ)) ∧
    (get_phikhalf cfg60 59 = Except.ok fun c =>
      some (cfg60.era_ds.z c +
        ∑ j in Finset.Icc (59 + 1) cfg60.lvlmax,
          R_D * (cfg60.era_ds.t j c * (1 + (R_V / R_D - 1) * cfg60.era_ds.q j c)) *
            Real.log ((4 : ℝ) / (60 : ℝ)))) := by
  have hs : cfg60.source = Source.erai := by norm_num [cfg60, set_data, sourceOf]
  have hm : cfg60.lvlmax = 60 := by norm_num [cfg60, set_data]
  have hPU : ∀ j, (59 : ℤ) + 1 ≤ j → j ≤ cfg60.lvlmax →
      get_p cfg60 j (-(1/2)) = Except.ok fun _ => some ((60 : ℝ)) := by
    intro j h1 h2
    rw [hm] at h2
    have hj : j = 60 := by omega
    subst hj
    exact (get_p_above_erai cfg60 60 hs (by omega)).trans
      (congrArg Except.ok (funext fun c => by norm_num [cfg60, set_data, mlInt, eds4]))
  have hPL : ∀ j, (59 : ℤ) + 1 ≤ j → j ≤ cfg60.lvlmax →
      get_p cfg60 j (1/2) = Except.ok fun _ => some ((4 : ℝ)) := by
    intro j h1 h2
    rw [hm] at h2
    have hj : j = 60 := by omega
    subst hj
    exact (get_p_below_erai_surf cfg60 60 hs hm.symm).trans
      (congrArg Except.ok (funext fun c => by norm_num [cfg60, set_data, eds4]))
  have hpos : ∀ j, (59 : ℤ) + 1 ≤ j → j ≤ cfg60.lvlmax → ∀ c : Unit,
      0 < ((fun (_ : ℤ) (_ : Unit) => (60 : ℝ)) j c) ∧
      0 < ((fun (_ : ℤ) (_ : Unit) => (4 : ℝ)) j c) := by
    intro j _ _ c
    exact ⟨by norm_num, by norm_num⟩
  exact ⟨by norm_num, by omega, hPU 60 (by norm_num) (by omega), hPL 60 (by norm_num) (by omega),
    (claim_C2 cfg60 59 (by norm_num) (by omega)
      (fun _ _ => (60 : ℝ)) (fun _ _ => (4 : ℝ)) hPU hPL hpos).1⟩

/-- C5: `alpha(1)` is the constant `ln 2` uniformly over the grid,
whatever the input fields and configuration; and for `k > 1`,
`alpha(k) = 1 − (p_above/Δp) × ln(p_below/p_above)` with
`Δp = p_below − p_above` taken from the pressure resolver, whenever the
resolved pressures make the quotients finite. -/
theorem claim_C5 (cfg : Cfg Cell) :
    get_alpha cfg 1 = Except.ok (fun _ => some (Real.log 2)) ∧
    ∀ k, 1 < k → ∀ pu pl : Cell → ℝ,
      get_p cfg k (-(1/2)) = Except.ok (fun c => some (pu c)) →
      get_p cfg k (1/2) = Except.ok (fun c => some (pl c)) →
      (∀ c, pl c - pu c ≠ 0) → (∀ c, pu c ≠ 0) → (∀ c, 0 < pl c / pu c) →
      get_alpha cfg k = Except.ok fun c =>
        some (1 - pu c / (pl c - pu c) * Real.log (pl c / pu c)) := by
  constructor
  · rw [get_alpha, if_pos rfl]
  · intro k hk pu pl hpu hpl hd h0 hq
    rw [get_alpha, if_neg (by omega), hpu, hpl]
    exact congrArg Except.ok (funext fun c => by
      simp [fsub, fdiv, fmul, flog, if_neg (hd c), if_neg (h0 c), if_pos (hq c)])

/-- Witness for C5 at the concrete erai configuration `cfg60`, level 2:
`p_above = 2` (row 2), `p_below = 3` (row 3). -/
theorem claim_C5_witness :
    get_alpha cfg60 1 = Except.ok (fun _ => some (Real.log 2)) ∧
    (1 : ℤ) < 2 ∧
    get_p cfg60 2 (-(1/2)) = Except.ok (fun _ => some (2 : ℝ)) ∧
    get_p cfg60 2 (1/2) = Except.ok (fun _ => some (3 : ℝ)) ∧
    ((3 : ℝ) - 2 ≠ 0) ∧ ((2 : ℝ) ≠ 0) ∧ (0 < (3 : ℝ) / 2) ∧
    get_alpha cfg60 2 = Except.ok fun _ =>
      some (1 - (2 : ℝ) / (3 - 2) * Real.log (3 / 2)) := by
  have hs : cfg60.source = Source.erai := by norm_num [cfg60, set_data, sourceOf]
  have hm : cfg60.lvlmax = 60 := by norm_num [cfg60, set_data]
  have hpu : get_p cfg60 2 (-(1/2)) = Except.ok (fun _ => some (2 : ℝ)) :=
    (get_p_above_erai cfg60 2 hs (by omega)).trans
      (congrArg Except.ok (funext fun c => by norm_num [cfg60, set_data, mlInt, eds4]))
  have hpl : get_p cfg60 2 (1/2) = Except.ok (fun _ => some (3 : ℝ)) :=
    (get_p_below_erai cfg60 2 hs (by omega)).trans
      (congrArg Except.ok (funext fun c => by norm_num [cfg60, set_data, mlInt, eds4]))
  exact ⟨(claim_C5 cfg60).1, by norm_num, hpu, hpl, by norm_num, by norm_num, by norm_num,
    (claim_C5 cfg60).2 2 (by norm_num) (fun _ => (2 : ℝ)) (fun _ => (3 : ℝ)) hpu hpl
      (fun _ => by norm_num) (fun _ => by norm_num) (fun _ => by norm_num)⟩

/-- C4: for every full level `k` in `[1, max_level]`, the full-level
geopotential is `geopotential_half_level(k) + alpha(k) × R_D × Tv(k)`
with `Tv` the virtual temperature at level `k`, and the gas constants
are the fixed module constants `R_D = 287.06` and `R_V = 461`. -/
theorem claim_C4 (cfg : Cfg Cell) (k : ℤ) (hk1 : 1 ≤ k) (hk2 : k ≤ cfg.lvlmax)
    (ph al : Cell → ℝ)
    (hph : get_phikhalf cfg k = Except.ok fun c => some (ph c))
    (hal : get_alpha cfg k = Except.ok fun c => some (al c)) :
    (get_phi cfg k = Except.ok fun c =>
      some (ph c + al c * R_D *
        (cfg.era_ds.t k c * (1 + (R_V / R_D - 1) * cfg.era_ds.q k c)))) ∧
    R_D = 287.06 ∧ R_V = 461 := by
  refine ⟨?_, rfl, rfl⟩
  rw [get_phi, hph, hal]
  exact congrArg Except.ok (funext fun c => by simp [fadd, fmul, tv, mul_assoc])

/-- Witness for C4 at the concrete erai configuration `cfgW`, level 60:
the half-level geopotential is the surface value 0 and
`alpha(60) = 1 − (2/(4−2))·ln(4/2) = 1 − ln 2`. -/
theorem claim_C4_witness :
    (1 : ℤ) ≤ 60 ∧ (60 : ℤ) ≤ cfgW.lvlmax ∧
    get_phikhalf cfgW 60 = Except.ok (fun _ => some (0 : ℝ)) ∧
    get_alpha cfgW 60 = Except.ok (fun _ => some (1 - Real.log 2)) ∧
    (get_phi cfgW 60 = Except.ok fun c =>
      some ((0 : ℝ) + (1 - Real.log 2) * R_D *
        (cfgW.era_ds.t 60 c * (1 + (R_V / R_D - 1) * cfgW.era_ds.q 60 c)))) ∧
    R_D = 287.06 ∧ R_V = 461 := by
  have hs : cfgW.source = Source.erai := by norm_num [cfgW, set_data, sourceOf]
  have hm : cfgW.lvlmax = 60 := by norm_num [cfgW, set_data]
  have hph : get_phikhalf cfgW 60 = Except.ok (fun _ => some (0 : ℝ)) :=
    (get_phikhalf_surface cfgW 60 (by omega)).trans
      (congrArg Except.ok (funext fun c => by norm_num [cfgW, set_data, eds4]))
  have hpa : get_p cfgW 60 (-(1/2)) = Except.ok (fun _ => some (2 : ℝ)) :=
    (get_p_above_erai cfgW 60 hs (by omega)).trans
      (congrArg Except.ok (funext fun c => by norm_num [cfgW, set_data, mlC, eds4]))
  have hpb : get_p cfgW 60 (1/2) = Except.ok (fun _ => some (4 : ℝ)) :=
    (get_p_below_erai_surf cfgW 60 hs hm.symm).trans
      (congrArg Except.ok (funext fun c => by norm_num [cfgW, set_data, eds4]))
  have hal : get_alpha cfgW 60 = Except.ok (fun _ => some (1 - Real.log 2)) := by
    rw [get_alpha, if_neg (by norm_num), hpa, hpb]
    refine congrArg Except.ok (funext fun c => ?_)
    norm_num [fsub, fdiv, fmul, flog]
  exact ⟨by norm_num, by omega, hph, hal,
    (claim_C4 cfgW 60 (by norm_num) (by omega) (fun _ => (0 : ℝ))
      (fun _ => 1 - Real.log 2) hph hal).1, rfl, rfl⟩

/-- C7 (code bug): with a valid 137-level configuration, requesting a
pressure at the out-of-range level 138 returns the all-NaN field with no
failure (for either specifier), and the public entry point `get_phi`
likewise returns an all-NaN field at level 138 instead of failing with
an `InvalidLevel` error; an unrecognized specifier does abort, but with
an accidental `UnboundLocalError` (after printing), not `InvalidLevel`. -/
theorem claim_C7_bug :
    get_p cfg137c 138 (1/2) = Except.ok (fun _ => (none : FV)) ∧
    get_p cfg137c 138 (-(1/2)) = Except.ok (fun _ => (none : FV)) ∧
    get_phi cfg137c 138 = Except.ok (fun _ => (none : FV)) ∧
    get_p cfg137c 5 (7/10) = Except.error PyErr.unboundLocal := by
  have hm : cfg137c.lvlmax = 137 := by norm_num [cfg137c, set_data]
  have hs : cfg137c.source = Source.era5 := by norm_num [cfg137c, set_data, sourceOf]
  have h1 : get_p cfg137c 138 (1/2) = Except.ok (fun _ => (none : FV)) :=
    get_p_out_of_range cfg137c 138 _ (by omega)
  have h2 : get_p cfg137c 138 (-(1/2)) = Except.ok (fun _ => (none : FV)) :=
    get_p_out_of_range cfg137c 138 _ (by omega)
  have hphik : get_phikhalf cfg137c 138 = Except.ok (fun _ => some (0 : ℝ)) :=
    (get_phikhalf_surface cfg137c 138 (by omega)).trans
      (congrArg Except.ok (funext fun c => by norm_num [cfg137c, set_data, eds1]))
  have hal : get_alpha cfg137c 138 = Except.ok (fun _ => (none : FV)) := by
    rw [get_alpha, if_neg (by norm_num), h2, h1]
    exact congrArg Except.ok (funext fun c => by simp [fsub, fdiv, fmul, flog])
  have hphi : get_phi cfg137c 138 = Except.ok (fun _ => (none : FV)) := by
    rw [get_phi, hphik, hal]
    exact congrArg Except.ok (funext fun c => by simp [fadd, fmul])
  have hbad : get_p cfg137c 5 (7/10) = Except.error PyErr.unboundLocal := by
    have hh : get_h Source.era5 (7/10) = none := by norm_num [get_h]
    simp only [get_p, hs, hh, if_neg (show ¬ cfg137c.lvlmax < 5 by omega)]
  exact ⟨h1, h2, hphi, hbad⟩

/-- C8 (code bug): `get_alpha` performs no check on the half-level
pressure difference.  In the concrete configuration `cfgW` the two
half-level pressures at level 2 are both 2, so `Δp = 0`, yet
`get_alpha(2)` returns an all-NaN field with no
DivisionByZero/InvalidInput failure and no report of the offending
cells. -/
theorem claim_C8_bug :
    get_p cfgW 2 (-(1/2)) = Except.ok (fun _ => some (2 : ℝ)) ∧
    get_p cfgW 2 (1/2) = Except.ok (fun _ => some (2 : ℝ)) ∧
    get_alpha cfgW 2 = Except.ok (fun _ => (none : FV)) := by
  have hs : cfgW.source = Source.erai := by norm_num [cfgW, set_data, sourceOf]
  have hm : cfgW.lvlmax = 60 := by norm_num [cfgW, set_data]
  have h1 : get_p cfgW 2 (-(1/2)) = Except.ok (fun _ => some (2 : ℝ)) :=
    (get_p_above_erai cfgW 2 hs (by omega)).trans
      (congrArg Except.ok (funext fun c => by norm_num [cfgW, set_data, mlC, eds4]))
  have h2 : get_p cfgW 2 (1/2) = Except.ok (fun _ => some (2 : ℝ)) :=
    (get_p_below_erai cfgW 2 hs (by omega)).trans
      (congrArg Except.ok (funext fun c => by norm_num [cfgW, set_data, mlC, eds4]))
  refine ⟨h1, h2, ?_⟩
  rw [get_alpha, if_neg (by norm_num), h1, h2]
  exact congrArg Except.ok (funext fun c => by norm_num [fsub, fdiv, fmul, flog])

/-- The coefficient-table row that the active convention places at the
surface boundary: row `lvlmax` under era5 numbering, row `lvlmax + 1`
under erai numbering. -/
def surfRow (cfg : Cfg Cell) : ℤ :=
  if cfg.source = Source.erai then cfg.lvlmax + 1 else cfg.lvlmax

/-- Equality of `Except.ok`-wrapped fields gives pointwise equality. -/
lemma okFun_eq {α β : Type} {f g : α → β}
    (h : (Except.ok f : Except PyErr (α → β)) = Except.ok g) (c : α) : f c = g c := by
  cases h
  rfl

/-- C9 (amended): half-level pressures strictly increase downward for
every full level `k` in range and every cell with positive surface
pressure, provided the table's `a` and `b` columns strictly increase
with the row index AND the row at the surface boundary index evaluates
exactly to the surface pressure (`a + b × sp = sp`). -/
theorem claim_C9 (cfg : Cfg Cell) (c : Cell)
    (hs : cfg.source = Source.era5 ∨ cfg.source = Source.erai)
    (hsp : 0 < cfg.era_ds.sp c)
    (ha : ∀ i j : ℤ, i < j → cfg.ml_df.a i < cfg.ml_df.a j)
    (hb : ∀ i j : ℤ, i < j → cfg.ml_df.b i < cfg.ml_df.b j)
    (hsurf : cfg.ml_df.a (surfRow cfg) + cfg.ml_df.b (surfRow cfg) * cfg.era_ds.sp c
      = cfg.era_ds.sp c)
    (k : ℤ) (hk1 : 1 ≤ k) (hk2 : k ≤ cfg.lvlmax)
    (pa pb : Cell → ℝ)
    (hpa : get_p cfg k (-(1/2)) = Except.ok fun x => some (pa x))
    (hpb : get_p cfg k (1/2) = Except.ok fun x => some (pb x)) :
    pa c < pb c := by
  have rowlt : ∀ i j : ℤ, i < j →
      cfg.ml_df.a i + cfg.ml_df.b i * cfg.era_ds.sp c <
        cfg.ml_df.a j + cfg.ml_df.b j * cfg.era_ds.sp c := fun i j hij =>
    add_lt_add (ha i j hij) (mul_lt_mul_of_pos_right (hb i j hij) hsp)
  rcases hs with h5 | h6
  · have hsr : surfRow cfg = cfg.lvlmax := by simp [surfRow, h5]
    have hva : pa c = cfg.ml_df.a (k - 1) + cfg.ml_df.b (k - 1) * cfg.era_ds.sp c :=
      (Option.some.inj (okFun_eq ((get_p_above_era5 cfg k h5 hk2).symm.trans hpa) c)).symm
    rcases lt_or_eq_of_le hk2 with hlt | heq
    · have hvb : pb c = cfg.ml_df.a k + cfg.ml_df.b k * cfg.era_ds.sp c :=
        (Option.some.inj (okFun_eq ((get_p_below_era5 cfg k h5 hlt).symm.trans hpb) c)).symm
      rw [hva, hvb]
      exact rowlt (k - 1) k (by omega)
    · have hvb : pb c = cfg.era_ds.sp c :=
        (Option.some.inj (okFun_eq ((get_p_below_era5_surf cfg k h5 heq).symm.trans hpb) c)).symm
      rw [hva, hvb]
      have hlt : cfg.ml_df.a (k - 1) + cfg.ml_df.b (k - 1) * cfg.era_ds.sp c <
          cfg.ml_df.a (surfRow cfg) + cfg.ml_df.b (surfRow cfg) * cfg.era_ds.sp c := by
        rw [hsr]
        exact rowlt (k - 1) cfg.lvlmax (by omega)
      linarith [hsurf]
  · have hsr : surfRow cfg = cfg.lvlmax + 1 := by simp [surfRow, h6]
    have hva : pa c = cfg.ml_df.a k + cfg.ml_df.b k * cfg.era_ds.sp c :=
      (Option.some.inj (okFun_eq ((get_p_above_erai cfg k h6 hk2).symm.trans hpa) c)).symm
    rcases lt_or_eq_of_le hk2 with hlt | heq
    · have hvb : pb c = cfg.ml_df.a (k + 1) + cfg.ml_df.b (k + 1) * cfg.era_ds.sp c :=
        (Option.some.inj (okFun_eq ((get_p_below_erai cfg k h6 hlt).symm.trans hpb) c)).symm
      rw [hva, hvb]
      exact rowlt k (k + 1) (by omega)
    · have hvb : pb c = cfg.era_ds.sp c :=
        (Option.some.inj (okFun_eq ((get_p_below_erai_surf cfg k h6 heq).symm.trans hpb) c)).symm
      rw [hva, hvb]
      have hlt : cfg.ml_df.a k + cfg.ml_df.b k * cfg.era_ds.sp c <
          cfg.ml_df.a (surfRow cfg) + cfg.ml_df.b (surfRow cfg) * cfg.era_ds.sp c := by
        rw [hsr]
        exact rowlt k (cfg.lvlmax + 1) (by omega)
      linarith [hsurf]

/-- Counterexample to C9 as stated: in the reachable era5 configuration
`cfg137c` both coefficient columns strictly increase with the row index
and the surface pressure is positive, yet at the bottom level
`k = 137 = max_level` the pressure above (272, from table row 136) is
not below the pressure below (the surface pressure 1): monotonicity of
the table columns alone does not give the claimed inequality at the
surface boundary. -/
theorem claim_C9_cex :
    cfg137c.source = Source.era5 ∧ (0 : ℝ) < cfg137c.era_ds.sp () ∧
    (∀ i j : ℤ, i < j → cfg137c.ml_df.a i < cfg137c.ml_df.a j) ∧
    (∀ i j : ℤ, i < j → cfg137c.ml_df.b i < cfg137c.ml_df.b j) ∧
    (1 : ℤ) ≤ 137 ∧ (137 : ℤ) ≤ cfg137c.lvlmax ∧
    get_p cfg137c 137 (-(1/2)) = Except.ok (fun _ => some (272 : ℝ)) ∧
    get_p cfg137c 137 (1/2) = Except.ok (fun _ => some (1 : ℝ)) ∧
    ¬ ((272 : ℝ) < 1) := by
  have hs : cfg137c.source = Source.era5 := by norm_num [cfg137c, set_data, sourceOf]
  have hm : cfg137c.lvlmax = 137 := by norm_num [cfg137c, set_data]
  refine ⟨hs, by norm_num [cfg137c, set_data, eds1], ?_, ?_, by norm_num, by omega, ?_, ?_,
    by norm_num⟩
  · intro i j hij
    show (i : ℝ) < (j : ℝ)
    exact_mod_cast hij
  · intro i j hij
    show (i : ℝ) < (j : ℝ)
    exact_mod_cast hij
  · exact (get_p_above_era5 cfg137c 137 hs (by omega)).trans
      (congrArg Except.ok (funext fun c => by norm_num [cfg137c, set_data, mlId, eds1]))
  · exact (get_p_below_era5_surf cfg137c 137 hs hm.symm).trans
      (congrArg Except.ok (funext fun c => by norm_num [cfg137c, set_data, eds1]))

/-- A single-cell dataset with surface pressure 2 and all other fields 0. -/
def edsM : EraDs Unit :=
  ⟨fun _ => 2, fun _ _ => 0, fun _ _ => 0, fun _ => 0⟩

/-- A coefficient table with strictly increasing columns normalized so
that row 61 (the erai surface row) gives exactly the surface pressure. -/
noncomputable def mlM : MlDf := ⟨fun i => (i : ℝ) - 61, fun i => (i : ℝ) / 61⟩

/-- A 60-level erai configuration satisfying the amended C9 hypotheses. -/
noncomputable def cfgM : Cfg Unit := set_data edsM mlM 60

/-- Witness for the amended C9 at the boundary level 60 of `cfgM`:
`p_above = 59/61 < 2 = p_below`. -/
theorem claim_C9_witness :
    cfgM.source = Source.erai ∧ (0 : ℝ) < cfgM.era_ds.sp () ∧
    cfgM.ml_df.a (surfRow cfgM) + cfgM.ml_df.b (surfRow cfgM) * cfgM.era_ds.sp () =
      cfgM.era_ds.sp () ∧
    (1 : ℤ) ≤ 60 ∧ (60 : ℤ) ≤ cfgM.lvlmax ∧
    get_p cfgM 60 (-(1/2)) = Except.ok (fun _ => some ((59 : ℝ) / 61)) ∧
    get_p cfgM 60 (1/2) = Except.ok (fun _ => some (2 : ℝ)) ∧
    (59 : ℝ) / 61 < 2 := by
  have hs : cfgM.source = Source.erai := by norm_num [cfgM, set_data, sourceOf]
  have hm : cfgM.lvlmax = 60 := by norm_num [cfgM, set_data]
  have hsr : surfRow cfgM = 61 := by
    rw [surfRow, if_pos hs, hm]
    norm_num
  have hsurf : cfgM.ml_df.a (surfRow cfgM) + cfgM.ml_df.b (surfRow cfgM) * cfgM.era_ds.sp () =
      cfgM.era_ds.sp () := by
    rw [hsr]
    norm_num [cfgM, set_data, mlM, edsM]
  have hpa : get_p cfgM 60 (-(1/2)) = Except.ok (fun _ => some ((59 : ℝ) / 61)) :=
    (get_p_above_erai cfgM 60 hs (by omega)).trans
      (congrArg Except.ok (funext fun c => by norm_num [cfgM, set_data, mlM, edsM]))
  have hpb : get_p cfgM 60 (1/2) = Except.ok (fun _ => some (2 : ℝ)) :=
    (get_p_below_erai_surf cfgM 60 hs hm.symm).trans
      (congrArg Except.ok (funext fun c => by norm_num [cfgM, set_data, edsM]))
  have hsp : (0 : ℝ) < cfgM.era_ds.sp () := by norm_num [cfgM, set_data, edsM]
  have ha : ∀ i j : ℤ, i < j → cfgM.ml_df.a i < cfgM.ml_df.a j := by
    intro i j hij
    show (i : ℝ) - 61 < (j : ℝ) - 61
    have : (i : ℝ) < (j : ℝ) := by exact_mod_cast hij
    linarith
  have hb : ∀ i j : ℤ, i < j → cfgM.ml_df.b i < cfgM.ml_df.b j := by
    intro i j hij
    show (i : ℝ) / 61 < (j : ℝ) / 61
    have : (i : ℝ) < (j : ℝ) := by exact_mod_cast hij
    linarith
  exact ⟨hs, hsp, hsurf, by norm_num, by omega, hpa, hpb,
    claim_C9 cfgM () (Or.inr hs) hsp ha hb hsurf 60 (by norm_num) (by omega)
      (fun _ => (59 : ℝ) / 61) (fun _ => (2 : ℝ)) hpa hpb⟩

end Claims

end GPCalc
